import Mathlib

/-!
Verification of `intraday_momentum_executor.py` (Kaartik7/intraday-breakout-classifier).

Shallow embedding conventions:
* Python floats are modelled as exact rationals (`ℚ`).
* Python truthiness on a float (`not x`) is modelled as `x = 0`.
* Python exceptions are modelled with `Option`/`Except`: a function that can
  raise returns `none` / `.error` on the raising path.
* `math.inf` (the spread ratio of a symbol with a missing quote side) is
  modelled as `⊤ : WithTop ℚ`.
* External state read by the code (current quote, today's executions) is
  passed explicitly as a `MarketCtx` record.
-/

namespace IntradayExec

/-- One OHLCV bar, as produced by the market-data collaborator
(`bar.open`, `bar.high`, `bar.low`, `bar.close`, `bar.volume` in the source;
`open` is a Lean keyword, hence the `Price` suffixes). -/
structure Bar where
  openPrice : ℚ
  highPrice : ℚ
  lowPrice : ℚ
  closePrice : ℚ
  volume : ℚ
deriving DecidableEq

/-- The 7-tuple returned by `fetch_intraminute_features`:
`(open, high, low, close, volume, prev_bar_range_ratio, last_five_range_ratio)`. -/
structure FeatureVector where
  openPrice : ℚ
  highPrice : ℚ
  lowPrice : ℚ
  closePrice : ℚ
  volume : ℚ
  prevBarRangeRatio : ℚ
  lastFiveRangeRatio : ℚ
deriving DecidableEq

/-- Risk tier of an entry decision (`dollar_risk=10` ↦ Strong, `dollar_risk=5` ↦ Mild). -/
inductive RiskTier where
  | Strong
  | Mild
deriving DecidableEq

/-- Outcome of the breakout classification embedded in `evaluate_and_trade_symbol`. -/
inductive TradeDecision where
  | NoTrade
  | Enter (tier : RiskTier) (referencePrice : ℚ)
deriving DecidableEq

/-- Lines 224-226 of the source:
`bar_range_ratio = high_price / low_price` followed by
`bar_range_ratio = math.floor(bar_range_ratio * 100) / 100`. -/
def bar_range_ratio (high low : ℚ) : ℚ :=
  (⌊high / low * 100⌋ : ℚ) / 100

/-- The decision logic of `evaluate_and_trade_symbol` (lines 221-244), as a pure
function of the feature vector.  Each `return` in the source is a `NoTrade`;
the two `submit_entry_order` calls are `Enter` with the corresponding tier and
`reference_price = high_price`. -/
def classifyDecision (f : FeatureVector) : TradeDecision :=
  -- `if not high_price or not low_price: return`
  if f.highPrice = 0 ∨ f.lowPrice = 0 then .NoTrade
  -- `if close_price <= open_price: return`
  else if f.closePrice ≤ f.openPrice then .NoTrade
  -- `if bar_range_ratio > 1.30: return`
  else if 13/10 < bar_range_ratio f.highPrice f.lowPrice then .NoTrade
  -- `if prev_range_ratio > 1.05: return`
  else if 21/20 < f.prevBarRangeRatio then .NoTrade
  -- `if close_price > 5: return`
  else if 5 < f.closePrice then .NoTrade
  -- `if 1.10 < bar_range_ratio < 1.30: submit_entry_order(..., dollar_risk=10)`
  else if 11/10 < bar_range_ratio f.highPrice f.lowPrice ∧
          bar_range_ratio f.highPrice f.lowPrice < 13/10 then .Enter .Strong f.highPrice
  -- `elif bar_range_ratio > 1.05 and last_five_ratio < 1.03: submit_entry_order(..., dollar_risk=5)`
  else if 21/20 < bar_range_ratio f.highPrice f.lowPrice ∧
          f.lastFiveRangeRatio < 103/100 then .Enter .Mild f.highPrice
  else .NoTrade

/-- The reference rule exactly as the spec (§4.2) words it: reject when low is
zero; reject when close ≤ open, or barRangeRatio > 1.30, or
prevBarRangeRatio > 1.05, or close > 5.0; otherwise Strong when
1.10 < barRangeRatio < 1.30, else Mild when barRangeRatio > 1.05 and
lastFiveRangeRatio < 1.03, else NoTrade. -/
def specClassify (f : FeatureVector) : TradeDecision :=
  if f.lowPrice = 0 then .NoTrade
  else if f.closePrice ≤ f.openPrice ∨ 13/10 < bar_range_ratio f.highPrice f.lowPrice ∨
          21/20 < f.prevBarRangeRatio ∨ 5 < f.closePrice then .NoTrade
  else if 11/10 < bar_range_ratio f.highPrice f.lowPrice ∧
          bar_range_ratio f.highPrice f.lowPrice < 13/10 then .Enter .Strong f.highPrice
  else if 21/20 < bar_range_ratio f.highPrice f.lowPrice ∧
          f.lastFiveRangeRatio < 103/100 then .Enter .Mild f.highPrice
  else .NoTrade

/-- Python `max` over a list; `none` models the `ValueError` that `max` raises
on an empty sequence. -/
def listMax : List ℚ → Option ℚ
  | [] => none
  | x :: xs => some (xs.foldl max x)

/-- Python `min` over a list; `none` models the `ValueError` that `min` raises
on an empty sequence. -/
def listMin : List ℚ → Option ℚ
  | [] => none
  | x :: xs => some (xs.foldl min x)

/-- `fetch_intraminute_features` (lines 123-191) as a function of the fetched
bar list.  `bars[-1]` is `getLast?`, `bars[-2]` is `bars.dropLast.getLast?`,
`bars[-6:-1]` (five bars preceding the last, when `len(bars) ≥ 6`) is
`(bars.drop (bars.length - 6)).take 5`.  A `none` result models an uncaught
exception inside the function (only `min` on an empty sequence can raise). -/
def fetch_intraminute_features (bars : List Bar) : Option FeatureVector :=
  match bars.getLast? with
  | none => some ⟨0, 0, 0, 0, 0, 0, 1⟩
  | some latest =>
    if bars.length = 1 then
      some ⟨latest.openPrice, latest.highPrice, latest.lowPrice, latest.closePrice,
            latest.volume, 1, 1⟩
    else
      match bars.dropLast.getLast? with
      | none => none
      | some prev =>
        -- `(prev.high / prev.low) if prev.low else 1.0`
        let prev_range_ratio := if prev.lowPrice ≠ 0 then prev.highPrice / prev.lowPrice else 1
        if bars.length < 6 then
          some ⟨latest.openPrice, latest.highPrice, latest.lowPrice, latest.closePrice,
                latest.volume, prev_range_ratio, 1⟩
        else
          let recent_window := (bars.drop (bars.length - 6)).take 5
          -- `max(bar.high for bar in recent_window)`
          -- `min(bar.low for bar in recent_window if bar.low)`
          match listMax (recent_window.map Bar.highPrice),
                listMin ((recent_window.filter (fun b => b.lowPrice ≠ 0)).map Bar.lowPrice) with
          | some max_price, some min_price =>
            -- `(max_price / min_price) if min_price else 1.0`
            let last_five_ratio := if min_price ≠ 0 then max_price / min_price else 1
            some ⟨latest.openPrice, latest.highPrice, latest.lowPrice, latest.closePrice,
                  latest.volume, prev_range_ratio, last_five_ratio⟩
          | _, _ => none

/-- Python `round` to an integer: round-half-to-even (banker's rounding). -/
def pyRoundInt (x : ℚ) : ℤ :=
  if Int.fract x = 1/2 then (if 2 ∣ ⌊x⌋ then ⌊x⌋ else ⌊x⌋ + 1) else round x

/-- Python `round(x, 2)`. -/
def round2 (x : ℚ) : ℚ := (pyRoundInt (x * 100) : ℚ) / 100

/-- Python `int(x)` on a float: truncation toward zero. -/
def pyInt (x : ℚ) : ℤ := if 0 ≤ x then ⌊x⌋ else -⌊-x⌋

/-- `get_spread_ratio` (lines 50-62): a quote side that is missing (`none`) or
zero is falsy in `if not bid_price or not ask_price`, giving `math.inf` (`⊤`);
otherwise the ratio is `ask / bid`. -/
def get_spread_ratio (bid ask : Option ℚ) : WithTop ℚ :=
  match bid, ask with
  | some b, some a => if b = 0 ∨ a = 0 then ⊤ else ((a / b : ℚ) : WithTop ℚ)
  | _, _ => ⊤

/-- External broker state read during one submission: the current quote
(`ticker.bid` / `ticker.ask`) and the symbols already traded today
(the result of `fetch_symbols_traded_today`). -/
structure MarketCtx where
  bid : Option ℚ
  ask : Option ℚ
  tradedToday : List String

/-- The `StopLimitOrder` constructed in `submit_entry_order` (lines 103-109).
The GTD expiry is wall-clock-derived and not part of the model. -/
structure OrderSpec where
  action : String
  totalQuantity : ℤ
  stopPrice : ℚ
  lmtPrice : ℚ
  outsideRth : Bool
deriving DecidableEq

set_option linter.unusedVariables false in
/-- `submit_entry_order` (lines 77-117): the two risk filters, then sizing, the
`quantity <= 0` no-op, and the order actually placed (`some` = `ib.placeOrder`
called, `none` = the function returned without placing an order).
`minutes_valid` only feeds the GTD expiry, which is outside the model. -/
def submit_entry_order (ctx : MarketCtx) (symbol : String) (reference_price : ℚ)
    (minutes_valid : ℕ) (dollar_risk : ℚ) : Option OrderSpec :=
  -- `if get_spread_ratio(contract) > 1.05: return`
  if ((21/20 : ℚ) : WithTop ℚ) < get_spread_ratio ctx.bid ctx.ask then none
  -- `if contract.symbol in fetch_symbols_traded_today(): return`
  else if symbol ∈ ctx.tradedToday then none
  else
    let stop_price := round2 (51/50 * reference_price)
    let limit_price := round2 (27/25 * reference_price)
    let quantity := pyInt (dollar_risk / max stop_price (1/100))
    if quantity ≤ 0 then none
    else some ⟨"BUY", quantity, stop_price, limit_price, true⟩

/-- The tail of `evaluate_and_trade_symbol` after classification: the branch
taken calls `submit_entry_order(contract, high_price, minutes_valid=3,
dollar_risk=10)` for the strong breakout and `dollar_risk=5` for the mild one. -/
def decide_and_submit (ctx : MarketCtx) (symbol : String) (f : FeatureVector) :
    Option OrderSpec :=
  match classifyDecision f with
  | .NoTrade => none
  | .Enter .Strong ref => submit_entry_order ctx symbol ref 3 10
  | .Enter .Mild ref => submit_entry_order ctx symbol ref 3 5

/-- Everything inside the `try:` of `evaluate_and_trade_symbol` (lines 210-244):
the awaited bar fetch (whose network failure is the `Except` argument), feature
extraction (which can raise `ValueError`), classification and submission. -/
def evaluate_symbol_body (fetched : Except String (List Bar)) (ctx : MarketCtx)
    (symbol : String) : Except String (Option OrderSpec) := do
  let bars ← fetched
  match fetch_intraminute_features bars with
  | none => Except.error "ValueError: min() arg is an empty sequence"
  | some f => Except.ok (decide_and_submit ctx symbol f)

/-- `evaluate_and_trade_symbol` (lines 198-247) as one asyncio task: the
`try/except Exception` catches anything the body raises, logs it (the
`Option String` component) and the task finishes normally, so the `Except`
layer — what `asyncio.gather` would see — is `.ok` on both paths. -/
def evaluate_and_trade_symbol (fetched : Except String (List Bar)) (ctx : MarketCtx)
    (symbol : String) : Except String (Option OrderSpec × Option String) :=
  match evaluate_symbol_body fetched ctx symbol with
  | .ok o => Except.ok (o, none)
  | .error e => Except.ok (none, some ("Error processing " ++ symbol ++ ": " ++ e))

/-- Input to one symbol's evaluation: the symbol, the outcome of its bar fetch,
and the broker state it observes at submission time. -/
structure SymInput where
  symbol : String
  fetched : Except String (List Bar)
  ctx : MarketCtx

/-- `scan_universe_once` (lines 259-265): `asyncio.gather` over the per-symbol
tasks; a task that propagated an exception would fail the whole gather, which
`mapM` in the `Except` monad models. -/
def scan_universe_once (inputs : List SymInput) :
    Except String (List (Option OrderSpec × Option String)) :=
  inputs.mapM (fun i => evaluate_and_trade_symbol i.fetched i.ctx i.symbol)

/-- `asyncio.Semaphore(50)` — the limiter bound of `scan_universe_once`. -/
def SEM_LIMIT : ℕ := 50

/-- Lifecycle of one per-symbol task with respect to the semaphore permit:
not yet admitted, holding a permit (inside `async with sem`), or finished
(`ok = false` when it finished through the `except` branch). -/
inductive TaskPhase where
  | pending
  | running
  | finished (ok : Bool)
deriving DecidableEq

/-- Number of tasks currently holding a permit. -/
def activeCount (ts : List TaskPhase) : ℕ :=
  ts.countP (fun t => t = TaskPhase.running)

/-- Interleaving semantics of the task pool of `scan_universe_once` under
`asyncio.Semaphore(B)`: a pending task acquires a permit only while fewer than
`B` are held (`async with sem` suspends it otherwise); a running task finishes
— successfully or through the `except` branch — and releases its permit on
exiting the `async with` block, unconditionally. -/
inductive ScanStep (B : ℕ) : List TaskPhase → List TaskPhase → Prop
  | acquire (l r : List TaskPhase) :
      activeCount (l ++ TaskPhase.pending :: r) < B →
      ScanStep B (l ++ TaskPhase.pending :: r) (l ++ TaskPhase.running :: r)
  | release (l r : List TaskPhase) (ok : Bool) :
      ScanStep B (l ++ TaskPhase.running :: r) (l ++ TaskPhase.finished ok :: r)

/-- Task-pool states reachable from the start of a scan cycle over `n` symbols
(all tasks pending). -/
inductive ScanReachable (B n : ℕ) : List TaskPhase → Prop
  | init : ScanReachable B n (List.replicate n TaskPhase.pending)
  | step {s t : List TaskPhase} :
      ScanReachable B n s → ScanStep B s t → ScanReachable B n t

/-- `ONLINE_TICKERS = {}` (line 33): an empty dict; `set.union` over it unions
its (empty) key set. -/
def ONLINE_TICKERS : Finset String := ∅

/-- Lines 36-40: `universe_symbols = set(read_csv(...)["symbol"][:550])`, then
union with `ONLINE_TICKERS`, then `remove("INTJ")` when present.  `col` is the
`symbol` column of `stocks_with_float.csv`. -/
def universe_symbols (col : List String) : Finset String :=
  let s := (col.take 550).toFinset ∪ ONLINE_TICKERS
  if "INTJ" ∈ s then s.erase "INTJ" else s

/-- A six-bar window whose five bars preceding the last all have `low = 0`
(bar data with a missing low side). -/
def c3_bars : List Bar :=
  [⟨0, 1, 0, 0, 0⟩, ⟨0, 1, 0, 0, 0⟩, ⟨0, 1, 0, 0, 0⟩, ⟨0, 1, 0, 0, 0⟩,
   ⟨0, 1, 0, 0, 0⟩, ⟨1, 2, 1, 2, 1⟩]

/-!  ## Theorems -/

/-- C8: `bar_range_ratio` truncates to two decimals rather than rounding: at
`high = 1.299`, `low = 1.0` it yields `1.29`, not `1.30`. -/
theorem truncation_law :
    bar_range_ratio (1299/1000) 1 = 129/100 ∧ bar_range_ratio (1299/1000) 1 ≠ 13/10 := by
  constructor <;> (simp only [bar_range_ratio]; norm_num)

/-- C1: the decision logic of `evaluate_and_trade_symbol` coincides with the
spec's reference rule on every feature vector, and a feature vector whose
`bar_range_ratio` is exactly `1.10` never classifies as a Strong entry. -/
theorem classifier_matches_reference (f : FeatureVector) :
    classifyDecision f = specClassify f ∧
    (bar_range_ratio f.highPrice f.lowPrice = 11/10 →
      ∀ ref, classifyDecision f ≠ TradeDecision.Enter RiskTier.Strong ref) := by
  constructor
  · by_cases hl : f.lowPrice = 0
    · simp [classifyDecision, specClassify, hl]
    · by_cases hh : f.highPrice = 0
      · have hr : bar_range_ratio (0 : ℚ) f.lowPrice = 0 := by
          simp [bar_range_ratio]
        simp only [classifyDecision, specClassify, hh, hl, hr]
        norm_num
      · simp only [classifyDecision, specClassify, hh, hl, or_self, if_false, false_or]
        split_ifs <;> first | rfl | tauto
  · intro hr ref
    simp only [classifyDecision, hr]
    split_ifs <;> simp_all

/-- C9: the classification and the submitted order are independent of the
volume feature: overwriting the volume field changes neither. -/
theorem decision_ignores_volume (ctx : MarketCtx) (symbol : String)
    (f : FeatureVector) (v : ℚ) :
    classifyDecision
        (FeatureVector.mk f.openPrice f.highPrice f.lowPrice f.closePrice v
          f.prevBarRangeRatio f.lastFiveRangeRatio) = classifyDecision f ∧
    decide_and_submit ctx symbol
        (FeatureVector.mk f.openPrice f.highPrice f.lowPrice f.closePrice v
          f.prevBarRangeRatio f.lastFiveRangeRatio) = decide_and_submit ctx symbol f :=
  ⟨rfl, rfl⟩

/-- C10: the scanned universe is exactly the first 550 entries of the file's
symbol column with `"INTJ"` removed; `"INTJ"` is never in the universe. -/
theorem universe_construction (col : List String) :
    (∀ sym, sym ∈ universe_symbols col ↔ (sym ∈ col.take 550 ∧ sym ≠ "INTJ")) ∧
    "INTJ" ∉ universe_symbols col := by
  have hmain : ∀ sym, sym ∈ universe_symbols col ↔ (sym ∈ col.take 550 ∧ sym ≠ "INTJ") := by
    intro sym
    simp only [universe_symbols, ONLINE_TICKERS, Finset.union_empty]
    by_cases h : "INTJ" ∈ (col.take 550).toFinset
    · simp [Finset.mem_erase, List.mem_toFinset, h, and_comm]
    · rw [if_neg h]
      simp only [List.mem_toFinset] at h ⊢
      exact ⟨fun hs => ⟨hs, fun he => h (he ▸ hs)⟩, fun hs => hs.1⟩
  exact ⟨hmain, fun hmem => ((hmain "INTJ").mp hmem).2 rfl⟩

/-- C2 counterexample: on the two-bar window whose previous bar has
`low = -1 < 0`, the extractor returns `prevBarRangeRatio = high/low = -2`,
not the `1.0` the claim requires for a previous low that is not `> 0`
(the code's guard is Python truthiness, `prev.low != 0`). -/
theorem features_negative_low_cex :
    (fetch_intraminute_features [⟨0, 2, -1, 0, 0⟩, ⟨1, 1, 1, 1, 1⟩]).map
        FeatureVector.prevBarRangeRatio = some (-2) ∧ (-2 : ℚ) ≠ 1 := by
  constructor
  · simp [fetch_intraminute_features]
    norm_num
  · norm_num

/-- C2 (amended): windows of length 0, 1 and 2-5 produce exactly the sentinel
and derived feature values, with the previous-bar ratio guarded by
`previous low ≠ 0` (Python truthiness) rather than `previous low > 0`. -/
theorem features_short_windows (bars : List Bar) :
    (bars = [] →
      fetch_intraminute_features bars = some ⟨0, 0, 0, 0, 0, 0, 1⟩) ∧
    (∀ b, bars = [b] →
      fetch_intraminute_features bars =
        some ⟨b.openPrice, b.highPrice, b.lowPrice, b.closePrice, b.volume, 1, 1⟩) ∧
    (∀ l prev latest, bars = l ++ [prev, latest] → bars.length ≤ 5 →
      fetch_intraminute_features bars =
        some ⟨latest.openPrice, latest.highPrice, latest.lowPrice, latest.closePrice,
              latest.volume,
              if prev.lowPrice ≠ 0 then prev.highPrice / prev.lowPrice else 1, 1⟩) := by
  refine ⟨fun h => by subst h; rfl, fun b h => by subst h; rfl, ?_⟩
  intro l prev latest hb hlen
  subst hb
  have hassoc : l ++ [prev, latest] = (l ++ [prev]) ++ [latest] := by simp
  have h1 : (l ++ [prev, latest]).getLast? = some latest := by
    rw [hassoc]; exact List.getLast?_concat _
  have h2 : (l ++ [prev, latest]).dropLast = l ++ [prev] := by
    rw [hassoc]; exact List.dropLast_concat
  have h3 : (l ++ [prev]).getLast? = some prev := List.getLast?_concat _
  have hlen2 : (l ++ [prev, latest]).length = l.length + 2 := by simp
  have hne1 : ¬((l ++ [prev, latest]).length = 1) := by omega
  have hlt : (l ++ [prev, latest]).length < 6 := by omega
  simp only [fetch_intraminute_features, h1, h2, h3, hne1, hlt, if_false, if_true]

/-- C2 witness: a concrete two-bar window, instantiating the 2-to-5-bar case. -/
theorem features_short_windows_witness :
    fetch_intraminute_features [⟨1, 2, 1, 2, 1⟩, ⟨1, 3, 2, 3, 1⟩] =
      some ⟨1, 3, 2, 3, 1, 2, 1⟩ := by
  have h := (features_short_windows ([⟨1, 2, 1, 2, 1⟩, ⟨1, 3, 2, 3, 1⟩] : List Bar)).2.2
    [] ⟨1, 2, 1, 2, 1⟩ ⟨1, 3, 2, 3, 1⟩ rfl (by decide)
  rw [h]
  norm_num

/-- C3 (code bug): on a six-bar window whose five bars preceding the last all
have `low = 0`, `min(bar.low for bar in recent_window if bar.low)` raises
`ValueError` on an empty sequence — the `... if min_price else 1.0` fallback is
dead code — so feature extraction fails instead of returning
`lastFiveRangeRatio = 1.0`; the error is then caught by the task's handler. -/
theorem lastfive_all_zero_low_raises :
    fetch_intraminute_features c3_bars = none ∧
    evaluate_symbol_body (Except.ok c3_bars) (MarketCtx.mk (some 1) (some 1) []) "SYM" =
      Except.error "ValueError: min() arg is an empty sequence" := by
  have hfetch : fetch_intraminute_features c3_bars = none := by
    simp [c3_bars, fetch_intraminute_features, listMin, listMax]
  refine ⟨hfetch, ?_⟩
  show (match fetch_intraminute_features c3_bars with
      | none => Except.error "ValueError: min() arg is an empty sequence"
      | some f =>
          Except.ok (decide_and_submit (MarketCtx.mk (some 1) (some 1) []) "SYM" f)) =
    Except.error "ValueError: min() arg is an empty sequence"
  rw [hfetch]

/-- C1 witness: at `high = 11`, `low = 10` the truncated ratio is exactly
`1.10`, and the decision is not a Strong entry. -/
theorem classifier_matches_reference_witness :
    classifyDecision (FeatureVector.mk 1 11 10 2 0 1 1) =
      specClassify (FeatureVector.mk 1 11 10 2 0 1 1) ∧
    classifyDecision (FeatureVector.mk 1 11 10 2 0 1 1) ≠
      TradeDecision.Enter RiskTier.Strong 11 :=
  ⟨(classifier_matches_reference _).1,
   (classifier_matches_reference (FeatureVector.mk 1 11 10 2 0 1 1)).2
     (by norm_num [bar_range_ratio]) 11⟩

lemma pyInt_nonpos_iff (q : ℚ) : pyInt q ≤ 0 ↔ ⌊q⌋ ≤ 0 := by
  unfold pyInt
  split_ifs with h
  · exact Iff.rfl
  · push_neg at h
    constructor
    · intro _
      have : ⌊q⌋ ≤ ⌊(0 : ℚ)⌋ := Int.floor_le_floor (le_of_lt h)
      simpa using this
    · intro _
      have h0 : (0 : ℤ) ≤ ⌊-q⌋ := Int.le_floor.mpr (by simpa using le_of_lt h)
      omega

lemma pyInt_pos_eq_floor (q : ℚ) (h : ¬pyInt q ≤ 0) : pyInt q = ⌊q⌋ := by
  unfold pyInt at h ⊢
  split_ifs at h ⊢ with h0
  · rfl
  · exfalso
    push_neg at h0
    apply h
    have hge : (0 : ℤ) ≤ ⌊-q⌋ := Int.le_floor.mpr (by simpa using le_of_lt h0)
    omega

/-- C4: under passing risk checks, the order is sized exactly as specified:
`stopPrice = round(1.02·r, 2)`, `limitPrice = round(1.08·r, 2)`,
`quantity = ⌊d / max(stopPrice, 0.01)⌋`, no order when that quantity is ≤ 0,
and every submitted order has positive quantity. -/
theorem order_sizing (ctx : MarketCtx) (symbol : String) (r d : ℚ) (m : ℕ)
    (hspread : ¬((21/20 : ℚ) : WithTop ℚ) < get_spread_ratio ctx.bid ctx.ask)
    (hdup : symbol ∉ ctx.tradedToday) :
    submit_entry_order ctx symbol r m d =
      (if ⌊d / max (round2 (51/50 * r)) (1/100)⌋ ≤ 0 then none
       else some (OrderSpec.mk "BUY" ⌊d / max (round2 (51/50 * r)) (1/100)⌋
              (round2 (51/50 * r)) (round2 (27/25 * r)) true)) ∧
    (∀ o, submit_entry_order ctx symbol r m d = some o → 0 < o.totalQuantity) := by
  have heq : submit_entry_order ctx symbol r m d =
      (if pyInt (d / max (round2 (51/50 * r)) (1/100)) ≤ 0 then none
       else some (OrderSpec.mk "BUY" (pyInt (d / max (round2 (51/50 * r)) (1/100)))
              (round2 (51/50 * r)) (round2 (27/25 * r)) true)) := by
    simp only [submit_entry_order, if_neg hspread, if_neg hdup]
  constructor
  · rw [heq]
    by_cases hq : pyInt (d / max (round2 (51/50 * r)) (1/100)) ≤ 0
    · rw [if_pos hq, if_pos ((pyInt_nonpos_iff _).mp hq)]
    · rw [if_neg hq, if_neg (fun hc => hq ((pyInt_nonpos_iff _).mpr hc)),
        pyInt_pos_eq_floor _ hq]
  · intro o ho
    rw [heq] at ho
    by_cases hq : pyInt (d / max (round2 (51/50 * r)) (1/100)) ≤ 0
    · rw [if_pos hq] at ho
      exact absurd ho (by simp)
    · rw [if_neg hq] at ho
      obtain rfl := Option.some.inj ho
      simp only []
      omega

/-- C4 witness: `referencePrice = 2.00`, `dollarRisk = 10` yields
`stopPrice = 2.04`, `limitPrice = 2.16`, `quantity = 4`. -/
theorem order_sizing_witness :
    submit_entry_order (MarketCtx.mk (some 1) (some 1) []) "XYZ" 2 3 10 =
      some (OrderSpec.mk "BUY" 4 (51/25) (54/25) true) := by
  have h := (order_sizing (MarketCtx.mk (some 1) (some 1) []) "XYZ" 2 10 3
    (by simp only [get_spread_ratio]; norm_num)
    (by simp)).1
  rw [h]
  norm_num [round2, pyRoundInt, Int.fract, round_eq, max_def]

/-- C5: either risk check vetoing — spread ratio above 1.05 (infinite when a
quote side is missing) or a same-day duplicate — means no order is sent. -/
theorem risk_gate_veto (ctx : MarketCtx) (symbol : String) (r d : ℚ) (m : ℕ)
    (h : ((21/20 : ℚ) : WithTop ℚ) < get_spread_ratio ctx.bid ctx.ask ∨
         symbol ∈ ctx.tradedToday) :
    submit_entry_order ctx symbol r m d = none ∧
    (ctx.bid = none ∨ ctx.ask = none → get_spread_ratio ctx.bid ctx.ask = ⊤) := by
  constructor
  · simp only [submit_entry_order]
    rcases h with h | h
    · rw [if_pos h]
    · by_cases hs : ((21/20 : ℚ) : WithTop ℚ) < get_spread_ratio ctx.bid ctx.ask
      · rw [if_pos hs]
      · rw [if_neg hs, if_pos h]
  · intro hm
    rcases hm with hm | hm
    · rw [hm]; cases ctx.ask <;> rfl
    · rw [hm]; cases ctx.bid <;> rfl

/-- C5 witness: a missing bid makes the spread ratio infinite and vetoes. -/
theorem risk_gate_veto_witness :
    submit_entry_order (MarketCtx.mk none (some 1) []) "ABC" 2 3 10 = none ∧
    get_spread_ratio none (some 1) = ⊤ := by
  have h := risk_gate_veto (MarketCtx.mk none (some 1) []) "ABC" 2 10 3
    (Or.inl (WithTop.coe_lt_top _))
  exact ⟨h.1, h.2 (Or.inl rfl)⟩

lemma activeCount_append (l r : List TaskPhase) :
    activeCount (l ++ r) = activeCount l + activeCount r := by
  simp [activeCount, List.countP_append]

lemma activeCount_cons (t : TaskPhase) (r : List TaskPhase) :
    activeCount (t :: r) =
      activeCount r + (if t = TaskPhase.running then 1 else 0) := by
  simp [activeCount, List.countP_cons]

lemma activeCount_replicate (n : ℕ) :
    activeCount (List.replicate n TaskPhase.pending) = 0 := by
  induction n with
  | zero => rfl
  | succ n ih => simp [List.replicate_succ, activeCount_cons, ih]

/-- C6: in every task-pool state reachable under `asyncio.Semaphore(50)`, at
most 50 evaluations hold a permit, and every running task can release its
permit — on success or failure alike — strictly decreasing the count. -/
theorem semaphore_bound {n : ℕ} {s : List TaskPhase}
    (h : ScanReachable SEM_LIMIT n s) :
    activeCount s ≤ SEM_LIMIT ∧
    (∀ l r (ok : Bool), s = l ++ TaskPhase.running :: r →
      ScanStep SEM_LIMIT s (l ++ TaskPhase.finished ok :: r) ∧
      activeCount (l ++ TaskPhase.finished ok :: r) < activeCount s) := by
  have hbound : activeCount s ≤ SEM_LIMIT := by
    induction h with
    | init => simp [activeCount_replicate]
    | step hprev hstep ih =>
      cases hstep with
      | acquire l r hlt =>
        simp [activeCount_append, activeCount_cons] at hlt ⊢
        omega
      | release l r ok =>
        simp [activeCount_append, activeCount_cons] at ih ⊢
        omega
  refine ⟨hbound, ?_⟩
  intro l r ok hs
  subst hs
  refine ⟨ScanStep.release l r ok, ?_⟩
  simp [activeCount_append, activeCount_cons]

/-- C6 witness: with 51 tasks and one permit acquired, the bound holds. -/
theorem semaphore_bound_witness :
    activeCount (TaskPhase.running :: List.replicate 50 TaskPhase.pending) ≤ SEM_LIMIT := by
  have hcons : List.replicate 51 TaskPhase.pending =
      [] ++ TaskPhase.pending :: List.replicate 50 TaskPhase.pending := by
    simp [List.replicate_succ]
  have hguard : activeCount ([] ++ TaskPhase.pending :: List.replicate 50 TaskPhase.pending) <
      SEM_LIMIT := by
    decide
  have hreach : ScanReachable SEM_LIMIT 51
      ([] ++ TaskPhase.running :: List.replicate 50 TaskPhase.pending) :=
    ScanReachable.step (hcons ▸ ScanReachable.init)
      (ScanStep.acquire [] (List.replicate 50 TaskPhase.pending) hguard)
  exact (semaphore_bound hreach).1

/-- C7: no per-symbol task ever propagates an exception — each finishes `.ok`,
with any failure recorded in its log component — and hence the whole
`asyncio.gather` join-point returns normally with one result per symbol,
regardless of any symbol's failure. -/
theorem scan_never_propagates (inputs : List SymInput) :
    (∀ fetched ctx symbol, ∃ p, evaluate_and_trade_symbol fetched ctx symbol = Except.ok p) ∧
    (∃ rs, scan_universe_once inputs = Except.ok rs ∧ rs.length = inputs.length) := by
  have htask : ∀ fetched ctx symbol,
      ∃ p, evaluate_and_trade_symbol fetched ctx symbol = Except.ok p := by
    intro fetched ctx symbol
    unfold evaluate_and_trade_symbol
    cases evaluate_symbol_body fetched ctx symbol with
    | ok o => exact ⟨(o, none), rfl⟩
    | error e => exact ⟨(none, some ("Error processing " ++ symbol ++ ": " ++ e)), rfl⟩
  refine ⟨htask, ?_⟩
  induction inputs with
  | nil => exact ⟨[], rfl, rfl⟩
  | cons i is ih =>
    obtain ⟨rs, hrs, hlen⟩ := ih
    obtain ⟨p, hp⟩ := htask i.fetched i.ctx i.symbol
    refine ⟨p :: rs, ?_, by simp [hlen]⟩
    simp only [scan_universe_once] at hrs ⊢
    rw [List.mapM_cons, hp, hrs]
    rfl

end IntradayExec
